import Mathlib

/-!
Verification of the Study-Buddy quiz generator (`mystudybuddy_mlv.py`).

The Python program is modelled with a shallow embedding.  Strings are Lean
`String`s; the handful of Python string primitives the program uses
(`str.strip`, `str.upper`, `str.lower`, `str.split`, `str.splitlines`,
`s.split(sep)[-1]`, `x in s`) are re-implemented below by structural
recursion over the character list, so that every definition evaluates
inside the kernel.  External effects (the spacy NER pipeline, the
transformers text generator, the file-format libraries, `random.sample`,
`random.choice`, `random.shuffle`, console input) are modelled as explicit
oracle parameters; an exception raised by an external call is an
`Except.error`.
-/

set_option autoImplicit false

namespace StudyBuddy

/-- Python whitespace characters recognised by `str.split()` / `str.strip()`. -/
def isPySpace (c : Char) : Bool :=
  c = ' ' || c = '\t' || c = '\n' || c = '\r' || c = '\x0b' || c = '\x0c'

/-- Strip leading and trailing whitespace from a character list (`str.strip`). -/
def stripL (l : List Char) : List Char :=
  ((l.dropWhile isPySpace).reverse.dropWhile isPySpace).reverse

/-- Python `str.strip()`. -/
def pyStrip (s : String) : String := ⟨stripL s.data⟩

/-- Python `str.upper()` (ASCII, which is all the program compares). -/
def pyUpper (s : String) : String := ⟨s.data.map Char.toUpper⟩

/-- Python `str.lower()` (ASCII, which is all the program compares). -/
def pyLower (s : String) : String := ⟨s.data.map Char.toLower⟩

/-- Accumulator pass behind `str.split()`: split on whitespace runs,
dropping empty tokens.  `cur` holds the current token reversed. -/
def tokensAux : List Char → List Char → List (List Char)
  | [], cur => if cur = [] then [] else [cur.reverse]
  | c :: cs, cur =>
    if isPySpace c then
      if cur = [] then tokensAux cs [] else cur.reverse :: tokensAux cs []
    else tokensAux cs (c :: cur)

/-- Python `str.split()` (no separator argument). -/
def pyWords (s : String) : List String := (tokensAux s.data []).map String.mk

/-- Split on a single separator character, keeping empty parts
(Python `str.split(sep)` for a one-character separator). -/
def splitOnCharAux (sep : Char) : List Char → List Char → List (List Char)
  | [], cur => [cur.reverse]
  | c :: cs, cur =>
    if c = sep then cur.reverse :: splitOnCharAux sep cs []
    else splitOnCharAux sep cs (c :: cur)

/-- Python `str.split(sep)` for a one-character separator. -/
def splitOnChar (sep : Char) (s : String) : List String :=
  (splitOnCharAux sep s.data []).map String.mk

/-- The lines of a string.  (Python `str.splitlines` also drops a trailing
empty line, but the program filters out blank lines immediately after
splitting, so splitting on a newline character is equivalent there.) -/
def splitLines (s : String) : List String := splitOnChar '\n' s

/-- Does `l` start with `pat`? -/
def startsWithL : List Char → List Char → Bool
  | [], _ => true
  | _ :: _, [] => false
  | p :: ps, c :: cs => p = c && startsWithL ps cs

/-- Does `pat` occur as a contiguous sublist of `l`?  (Python `pat in l`.) -/
def containsL (pat : List Char) : List Char → Bool
  | [] => startsWithL pat []
  | c :: cs => startsWithL pat (c :: cs) || containsL pat cs

/-- Fuel-driven scan computing the suffix of `l` after the last
left-to-right non-overlapping occurrence of `pat`
(Python `l.split(pat)[-1]`). -/
def lastPartGo (pat : List Char) : Nat → List Char → List Char
  | 0, l => l
  | fuel + 1, l =>
    if containsL pat l then
      if startsWithL pat l then lastPartGo pat fuel (l.drop pat.length)
      else
        match l with
        | [] => []
        | _ :: cs => lastPartGo pat fuel cs
    else l

/-- Python `l.split(pat)[-1]` for a nonempty pattern. -/
def lastPart (pat l : List Char) : List Char := lastPartGo pat (l.length + 1) l

/-- `dict.fromkeys` pass: keep the first occurrence of every element. -/
def dedupFirstAux : List String → List String → List String
  | [], _ => []
  | x :: xs, seen =>
    if seen.contains x then dedupFirstAux xs seen
    else x :: dedupFirstAux xs (x :: seen)

/-- Python `list(dict.fromkeys(entities))`: deduplicate, keeping the first
occurrence of every element in order. -/
def dedupFirst (l : List String) : List String := dedupFirstAux l []

/-! ### `generate_quiz_question` -/

/-- The dictionary `generate_quiz_question` returns:
`{"question": ..., "options": [...], "answer": ...}`. -/
structure QuizQuestion where
  question : String
  options : List String
  answer : String
deriving DecidableEq

/-- The fixed fallback question
`{"question": entity, "options": ["A) Yes","B) No","C) Maybe","D) N/A"], "answer": "A"}`. -/
def placeholderQ (entity : String) : QuizQuestion :=
  ⟨entity, ["A) Yes", "B) No", "C) Maybe", "D) N/A"], "A"⟩

/-- `letters = ["A","B","C","D"]`. -/
def letters : List String := ["A", "B", "C", "D"]

/-- `next((l.split(marker)[-1].strip() for l in lines if marker in l), default)`. -/
def parsedField (marker : String) (lines : List String) (default : String) : String :=
  match lines.find? (fun l => containsL marker.data l.data) with
  | some l => pyStrip ⟨lastPart marker.data l.data⟩
  | none => default

/-- `while len(distractors) < 3: distractors.append(random.choice(cands))`.
`choice` is the oracle for `random.choice`: at step `step` it picks index
`choice step % cands.length`; on an empty population `random.choice` raises
(`none`).  The loop body runs at most three times, so fuel `3` is exact. -/
def padGo (cands : List String) (choice : Nat → Nat) : Nat → Nat → List String → Option (List String)
  | _, 0, ds => some ds
  | step, fuel + 1, ds =>
    if ds.length < 3 then
      if cands.length = 0 then none
      else padGo cands choice (step + 1) fuel (ds ++ [cands.getD (choice step % cands.length) ""])
    else some ds

/-- Tail of `generate_quiz_question` after a successful generator call and
distractor padding: truncate to 3 distractors, shuffle
`[answer] + distractors`, relabel `A)`–`D)`, and record the letter at the
first index of `answer` in the shuffled list.  Returns the dictionary
together with the recorded correct-answer text. -/
def genAssemble (question answer : String) (ds : List String)
    (shuffle : List String → List String) : QuizQuestion × String :=
  let distractors := ds.take 3
  let allOptions := answer :: distractors
  let shuffled := shuffle allOptions
  let options := (List.range 4).map (fun i => letters.getD i "" ++ ") " ++ shuffled.getD i "")
  (⟨question, options, letters.getD (shuffled.indexOf answer) ""⟩, answer)

/-- The `try` body of `generate_quiz_question` after parsing: pad the
distractor list from `cands` (an exception during padding is caught and
yields the placeholder), then assemble the shuffled, relabelled
options. -/
def genFromParsed (entity question answer : String) (distractors0 cands : List String)
    (choice : Nat → Nat) (shuffle : List String → List String) : QuizQuestion × String :=
  match padGo cands choice 0 3 distractors0 with
  | none => (placeholderQ entity, "Yes")
  | some ds => genAssemble question answer ds shuffle

/-- `generate_quiz_question(entity, material)` together with the recorded
correct-answer text (`"Yes"` for the placeholder, the parsed `Answer:`
field otherwise).  Oracles: `gen` is `none` when `text_generator` is
`None`, `some (.error ())` when the generator call raises, and
`some (.ok g)` when it returns the text `g`; `choice` drives
`random.choice`; `shuffle` is the outcome of `random.shuffle`. -/
def genQuizFull (entity material : String) (gen : Option (Except Unit String))
    (choice : Nat → Nat) (shuffle : List String → List String) : QuizQuestion × String :=
  match gen with
  | none => (placeholderQ entity, "Yes")
  | some (Except.error _) => (placeholderQ entity, "Yes")
  | some (Except.ok g) =>
    let lines := ((splitLines g).map pyStrip).filter (fun s => s ≠ "")
    let question := parsedField "Question:" lines entity
    let answer := parsedField "Answer:" lines entity
    let distractorsLine := parsedField "Distractors:" lines ""
    let distractors0 := ((splitOnChar ',' distractorsLine).map pyStrip).filter (fun s => s ≠ "")
    let cands := (pyWords material).filter (fun w => pyLower w ≠ pyLower answer)
    genFromParsed entity question answer distractors0 cands choice shuffle

/-- `generate_quiz_question(entity, material)`. -/
def generate_quiz_question (entity material : String) (gen : Option (Except Unit String))
    (choice : Nat → Nat) (shuffle : List String → List String) : QuizQuestion :=
  (genQuizFull entity material gen choice shuffle).1

/-! ### `extract_entities` -/

/-- The entity list obtained from the NER oracle before padding:
`[ent.text for ent in nlp(text).ents]` when `nlp` is loaded and the call
returns, `[]` when `nlp` is `None`. -/
def nerList (ner : Option (Except Unit (List String))) : List String :=
  match ner with
  | some (Except.ok es) => es
  | _ => []

/-- The long tokens of the raw text used for padding:
`[w for w in text.split() if len(w) > 3]`. -/
def longWords (text : String) : List String :=
  (pyWords text).filter (fun w => 3 < w.length)

/-- The entity sequence before deduplication: the NER results, padded with
`random.sample(words, min(10, len(words)))` when there are fewer than 5 of
them.  `sample` is the oracle for `random.sample`. -/
def combinedEntities (es : List String) (sample : List String → Nat → List String)
    (text : String) : List String :=
  if es.length < 5 then
    es ++ sample (longWords text) (min 10 (longWords text).length)
  else es

/-- `extract_entities(text)`.  The body has no `try`/`except`: when the
loaded NER pipeline call raises, the exception propagates
(`Except.error`). -/
def extract_entities (ner : Option (Except Unit (List String)))
    (sample : List String → Nat → List String) (text : String) :
    Except Unit (List String) :=
  match ner with
  | some (Except.error e) => Except.error e
  | some (Except.ok es) => Except.ok (dedupFirst (combinedEntities es sample text))
  | none => Except.ok (dedupFirst (combinedEntities [] sample text))

/-- What `random.sample(l, n)` guarantees for `n ≤ len(l)`: a sample of
exactly `n` elements drawn without replacement from `l`. -/
def SampleSpec (sample : List String → Nat → List String) : Prop :=
  ∀ l n, n ≤ l.length → (sample l n).length = n ∧ List.Subperm (sample l n) l

/-! ### `build_knowledge_graph` -/

/-- The loop of `build_knowledge_graph`, iterating over `todo` while the
populations are drawn from the full list `entities`.  `random.sample`
raises when the requested size exceeds the population
(`Except.error`). -/
def bkgGo (sample : List String → Nat → List String) (entities : List String) :
    List String → Except Unit (List (String × List String))
  | [] => Except.ok []
  | ent :: rest =>
    let population := entities.filter (fun e => e ≠ ent)
    let k := min 3 (entities.length - 1)
    if k ≤ population.length then
      match bkgGo sample entities rest with
      | Except.error e => Except.error e
      | Except.ok kgRest => Except.ok ((ent, sample population k) :: kgRest)
    else Except.error ()

/-- `build_knowledge_graph(entities)`; the dictionary is an association
list in insertion order. -/
def build_knowledge_graph (sample : List String → Nat → List String)
    (entities : List String) : Except Unit (List (String × List String)) :=
  bkgGo sample entities entities

/-! ### `extract_text_from_file` -/

/-- `os.path.splitext(p)[1]`: index of the last occurrence of a character,
counting from position `i`. -/
def lastIndexOfAux (c : Char) : List Char → Nat → Option Nat
  | [], _ => none
  | x :: xs, i =>
    match lastIndexOfAux c xs (i + 1) with
    | some j => some j
    | none => if x = c then some i else none

/-- The extension component of `os.path.splitext(p)` (POSIX rules): the
suffix from the last dot, provided the last dot lies after the last
separator and the basename does not consist solely of leading dots up to
it. -/
def splitextExt (p : List Char) : List Char :=
  let sepIdx : Int := match lastIndexOfAux '/' p 0 with | some i => (i : Int) | none => -1
  let dotIdx : Int := match lastIndexOfAux '.' p 0 with | some i => (i : Int) | none => -1
  if sepIdx < dotIdx then
    if (List.range p.length).any
        (fun i => decide (sepIdx < (i : Int)) && decide ((i : Int) < dotIdx) && p.getD i ' ' ≠ '.') then
      p.drop dotIdx.toNat
    else []
  else []

/-- `os.path.splitext(filepath)[1].lower()`. -/
def extLower (p : List Char) : List Char := (splitextExt p).map Char.toLower

instance exceptDecEq {ε α : Type} [DecidableEq ε] [DecidableEq α] : DecidableEq (Except ε α) :=
  fun a b =>
    match a, b with
    | Except.error e, Except.error f =>
      if h : e = f then Decidable.isTrue (congrArg Except.error h)
      else Decidable.isFalse (fun hc => h (by cases hc; rfl))
    | Except.error _, Except.ok _ => Decidable.isFalse (fun hc => Except.noConfusion hc)
    | Except.ok _, Except.error _ => Decidable.isFalse (fun hc => Except.noConfusion hc)
    | Except.ok x, Except.ok y =>
      if h : x = y then Decidable.isTrue (congrArg Except.ok h)
      else Decidable.isFalse (fun hc => h (by cases hc; rfl))

/-- Model of one `pdfplumber` page: the outcome of `page.extract_text()`
(which may raise, or return `None`/a string), and the outcome of the OCR
fallback on the rendered page image. -/
structure PdfPage where
  extracted : Except Unit (Option String)
  ocr : Except Unit String
deriving DecidableEq

/-- The per-page body of the PDF branch: `t = page.extract_text()`;
`if not t:` fall back to OCR. -/
def processPage (p : PdfPage) : Except Unit String :=
  match p.extracted with
  | Except.error e => Except.error e
  | Except.ok none => p.ocr
  | Except.ok (some s) => if s = "" then p.ocr else Except.ok s

/-- A `for` loop collecting results, where any iteration may raise and the
exception aborts the whole loop. -/
def mapExcept {α β : Type} (f : α → Except Unit β) : List α → Except Unit (List β)
  | [] => Except.ok []
  | x :: xs =>
    match f x with
    | Except.error e => Except.error e
    | Except.ok y =>
      match mapExcept f xs with
      | Except.error e => Except.error e
      | Except.ok ys => Except.ok (y :: ys)

/-- Outcomes of the external library calls `extract_text_from_file` can
make.  A `pptx` shape without a `text` attribute is `none`. -/
structure FileEnv where
  readFile : Except Unit String
  docxParas : Except Unit (List String)
  pdfPages : Except Unit (List PdfPage)
  pptxShapes : Except Unit (List (Option String))
  imageOcr : Except Unit String
deriving DecidableEq

/-- The `try` block of `extract_text_from_file`: extension dispatch, with
`text` still `""` on the unknown-extension fall-through. -/
def extractBody (p : List Char) (env : FileEnv) : Except Unit String :=
  let ext := extLower p
  if ext = ".txt".data ∨ ext = ".java".data then env.readFile
  else if ext = ".docx".data then
    match env.docxParas with
    | Except.error e => Except.error e
    | Except.ok paras => Except.ok (String.intercalate "\n" paras)
  else if ext = ".pdf".data then
    match env.pdfPages with
    | Except.error e => Except.error e
    | Except.ok pages =>
      match mapExcept processPage pages with
      | Except.error e => Except.error e
      | Except.ok texts => Except.ok (String.intercalate "\n" texts)
  else if ext = ".pptx".data then
    match env.pptxShapes with
    | Except.error e => Except.error e
    | Except.ok shapes => Except.ok (String.intercalate "\n" (shapes.filterMap id))
  else if ext = ".png".data ∨ ext = ".jpg".data ∨ ext = ".jpeg".data then env.imageOcr
  else Except.ok ""

/-- `extract_text_from_file(filepath)`: the result string, and whether the
`except` clause ran (a warning was printed).  On an exception `text` is
still `""`, so the function returns `"".strip()`. -/
def extract_text_from_file (p : List Char) (env : FileEnv) : String × Bool :=
  match extractBody p env with
  | Except.ok t => (pyStrip t, false)
  | Except.error _ => (pyStrip "", true)

/-! ### The quiz loop of `start_quiz` -/

/-- `ans.strip().upper() == "EXIT"`: the sentinel test of the quiz loop. -/
def isExitAnswer (a : String) : Bool := pyUpper (pyStrip a) = "EXIT"

/-- The questions the quiz loop presents, starting at console-input index
`i`: each iteration prints a question, reads one answer, and `break`s when
the answer is the exit sentinel. -/
def presentedFrom (ans : Nat → String) : List QuizQuestion → Nat → List QuizQuestion
  | [], _ => []
  | q :: qs, i => q :: (if isExitAnswer (ans i) then [] else presentedFrom ans qs (i + 1))

/-- The questions presented by the quiz loop of `start_quiz` when the
console answers are `ans 0, ans 1, ...`. -/
def presentedQuestions (qs : List QuizQuestion) (ans : Nat → String) : List QuizQuestion :=
  presentedFrom ans qs 0

/-! ### The pipeline of `start_quiz` -/

/-- `[generate_quiz_question(ent, text_data) for ent in entities[:10]]`
with per-call randomness: call `i` uses generator outcome `gen i`,
`random.choice` oracle `choice i` and shuffle oracle `shuffle i`. -/
def genQuestions (text : String) (gen : Option (Nat → Except Unit String))
    (choice : Nat → Nat → Nat) (shuffle : Nat → List String → List String) :
    Nat → List String → List QuizQuestion
  | _, [] => []
  | i, ent :: rest =>
    generate_quiz_question ent text (gen.map (fun f => f i)) (choice i) (shuffle i) ::
      genQuestions text gen choice shuffle (i + 1) rest

/-- The data `start_quiz` computes before the quiz loop. -/
structure QuizRun where
  entities : List String
  kg : List (String × List String)
  questions : List QuizQuestion
deriving DecidableEq

/-- The generation phase of `start_quiz`: extract entities, build the
knowledge graph, and generate one question for each of the first 10
entities.  An uncaught exception from `extract_entities` or
`build_knowledge_graph` propagates. -/
def startQuizRun (text : String) (ner : Option (Except Unit (List String)))
    (sample : List String → Nat → List String) (gen : Option (Nat → Except Unit String))
    (choice : Nat → Nat → Nat) (shuffle : Nat → List String → List String) :
    Except Unit QuizRun :=
  match extract_entities ner sample text with
  | Except.error e => Except.error e
  | Except.ok entities =>
    match build_knowledge_graph sample entities with
    | Except.error e => Except.error e
    | Except.ok kg =>
      Except.ok ⟨entities, kg, genQuestions text gen choice shuffle 0 (entities.take 10)⟩

/-! ### Specification predicates -/

/-- The option-set shape claimed for `generate_quiz_question`: exactly four
options labelled `A) `–`D) ` in that order, an answer letter among
`A`–`D`, and exactly one index whose letter is the answer letter — at that
index the option text is the recorded correct answer. -/
def OptionsSpec (q : QuizQuestion) (recorded : String) : Prop :=
  q.options.length = 4 ∧
  (∃ t0 t1 t2 t3, q.options = ["A) " ++ t0, "B) " ++ t1, "C) " ++ t2, "D) " ++ t3]) ∧
  q.answer ∈ letters ∧
  (∃! i : Fin 4, q.answer = letters.getD i.val "" ∧
    q.options.getD i.val "" = q.answer ++ ") " ++ recorded)

end StudyBuddy

namespace StudyBuddy

/-! ## Lemmas about deduplication (`extract_entities`) -/

theorem mem_dedupFirstAux (x : String) :
    ∀ (l seen : List String), x ∈ dedupFirstAux l seen ↔ x ∈ l ∧ x ∉ seen := by
  intro l
  induction l with
  | nil => intro seen; simp [dedupFirstAux]
  | cons y ys ih =>
    intro seen
    by_cases hy : seen.contains y
    · have hymem : y ∈ seen := by simpa using hy
      rw [dedupFirstAux, if_pos hy, ih seen]
      constructor
      · rintro ⟨hxs, hxn⟩
        exact ⟨List.mem_cons_of_mem _ hxs, hxn⟩
      · rintro ⟨hxs, hxn⟩
        rcases List.mem_cons.mp hxs with rfl | hxs
        · exact absurd hymem hxn
        · exact ⟨hxs, hxn⟩
    · have hynot : y ∉ seen := by simpa using hy
      rw [dedupFirstAux, if_neg hy]
      constructor
      · intro hx
        rcases List.mem_cons.mp hx with rfl | hx
        · exact ⟨List.mem_cons_self _ _, hynot⟩
        · rcases (ih (y :: seen)).mp hx with ⟨hxs, hxn⟩
          exact ⟨List.mem_cons_of_mem _ hxs,
            fun hc => hxn (List.mem_cons_of_mem _ hc)⟩
      · rintro ⟨hxs, hxn⟩
        rcases List.mem_cons.mp hxs with rfl | hxs
        · exact List.mem_cons_self _ _
        · by_cases hxy : x = y
          · subst hxy; exact List.mem_cons_self _ _
          · exact List.mem_cons_of_mem _ ((ih (y :: seen)).mpr
              ⟨hxs, fun hc => (List.mem_cons.mp hc).elim hxy hxn⟩)

theorem nodup_dedupFirstAux :
    ∀ (l seen : List String), (dedupFirstAux l seen).Nodup := by
  intro l
  induction l with
  | nil => intro seen; simp [dedupFirstAux]
  | cons y ys ih =>
    intro seen
    by_cases hy : seen.contains y
    · rw [dedupFirstAux, if_pos hy]; exact ih seen
    · rw [dedupFirstAux, if_neg hy]
      refine List.nodup_cons.mpr ⟨fun hc => ?_, ih (y :: seen)⟩
      exact ((mem_dedupFirstAux y ys (y :: seen)).mp hc).2 (List.mem_cons_self _ _)

theorem pairwise_dedupFirstAux :
    ∀ (l seen : List String),
      (dedupFirstAux l seen).Pairwise (fun a b => l.indexOf a < l.indexOf b) := by
  intro l
  induction l with
  | nil => intro seen; simp [dedupFirstAux]
  | cons y ys ih =>
    intro seen
    by_cases hy : seen.contains y
    · have hymem : y ∈ seen := by simpa using hy
      rw [dedupFirstAux, if_pos hy]
      refine List.Pairwise.imp_of_mem (fun {a b} ha hb hab => ?_) (ih seen)
      have hane : y ≠ a := fun h =>
        ((mem_dedupFirstAux a ys seen).mp ha).2 (h ▸ hymem)
      have hbne : y ≠ b := fun h =>
        ((mem_dedupFirstAux b ys seen).mp hb).2 (h ▸ hymem)
      rw [List.indexOf_cons_ne ys hane, List.indexOf_cons_ne ys hbne]
      omega
    · rw [dedupFirstAux, if_neg hy]
      refine List.Pairwise.cons (fun b hb => ?_) ?_
      · have hbne : y ≠ b := fun h =>
          ((mem_dedupFirstAux b ys (y :: seen)).mp hb).2 (h ▸ List.mem_cons_self _ _)
        rw [List.indexOf_cons_self, List.indexOf_cons_ne ys hbne]
        omega
      · refine List.Pairwise.imp_of_mem (fun {a b} ha hb hab => ?_) (ih (y :: seen))
        have hane : y ≠ a := fun h =>
          ((mem_dedupFirstAux a ys (y :: seen)).mp ha).2 (h ▸ List.mem_cons_self _ _)
        have hbne : y ≠ b := fun h =>
          ((mem_dedupFirstAux b ys (y :: seen)).mp hb).2 (h ▸ List.mem_cons_self _ _)
        rw [List.indexOf_cons_ne ys hane, List.indexOf_cons_ne ys hbne]
        omega

theorem mem_dedupFirst (x : String) (l : List String) : x ∈ dedupFirst l ↔ x ∈ l := by
  rw [dedupFirst, mem_dedupFirstAux]
  simp

theorem nodup_dedupFirst (l : List String) : (dedupFirst l).Nodup :=
  nodup_dedupFirstAux l []

theorem pairwise_dedupFirst (l : List String) :
    (dedupFirst l).Pairwise (fun a b => l.indexOf a < l.indexOf b) :=
  pairwise_dedupFirstAux l []

/-- Claim C4: for every input text, the list returned by
`extract_entities` contains no duplicate strings, its elements are exactly
those of the combined NER-results-then-padding sequence, and they appear
in the order of their first occurrence in that sequence. -/
theorem extract_entities_dedup_first_seen (ner : Option (Except Unit (List String)))
    (sample : List String → Nat → List String) (text : String) (r : List String)
    (h : extract_entities ner sample text = Except.ok r) :
    r.Nodup ∧
    (∀ x, x ∈ r ↔ x ∈ combinedEntities (nerList ner) sample text) ∧
    r.Pairwise (fun a b =>
      (combinedEntities (nerList ner) sample text).indexOf a <
      (combinedEntities (nerList ner) sample text).indexOf b) := by
  have hr : r = dedupFirst (combinedEntities (nerList ner) sample text) := by
    rcases ner with _ | ner
    · rw [extract_entities] at h
      cases h
      rfl
    · rcases ner with e | es
      · rw [extract_entities] at h
        cases h
      · rw [extract_entities] at h
        cases h
        rfl
  subst hr
  exact ⟨nodup_dedupFirst _, fun x => mem_dedupFirst x _, pairwise_dedupFirst _⟩

/-- Witness for C4 at a concrete input: NER results `["a","b","a"]`, empty
text, a take-based sampler. -/
theorem extract_entities_dedup_first_seen_witness :
    (["a", "b"] : List String).Nodup ∧
    (∀ x, x ∈ (["a", "b"] : List String) ↔
      x ∈ combinedEntities (nerList (some (Except.ok ["a", "b", "a"]))) (fun l n => l.take n) "") ∧
    (["a", "b"] : List String).Pairwise (fun a b =>
      (combinedEntities (nerList (some (Except.ok ["a", "b", "a"]))) (fun l n => l.take n) "").indexOf a <
      (combinedEntities (nerList (some (Except.ok ["a", "b", "a"]))) (fun l n => l.take n) "").indexOf b) :=
  extract_entities_dedup_first_seen (some (Except.ok ["a", "b", "a"]))
    (fun l n => l.take n) "" ["a", "b"] (by decide)

/-! ## Padding in `extract_entities` -/

/-- Claim C6: when the NER pipeline is unavailable or yields fewer than 5
entities, `extract_entities` appends (before deduplication) a sample of
`min(10, k)` of the `k` whitespace-separated tokens of the raw text longer
than 3 characters, drawn without replacement; with 5 or more entities no
padding is added. -/
theorem extract_entities_padding (sample : List String → Nat → List String)
    (hs : SampleSpec sample) (text : String) :
    (∀ es : List String, 5 ≤ es.length →
      extract_entities (some (Except.ok es)) sample text = Except.ok (dedupFirst es)) ∧
    (∀ es : List String, es.length < 5 →
      extract_entities (some (Except.ok es)) sample text =
        Except.ok (dedupFirst (es ++ sample (longWords text) (min 10 (longWords text).length))) ∧
      (sample (longWords text) (min 10 (longWords text).length)).length =
        min 10 (longWords text).length ∧
      List.Subperm (sample (longWords text) (min 10 (longWords text).length)) (longWords text)) ∧
    extract_entities none sample text =
      Except.ok (dedupFirst ([] ++ sample (longWords text) (min 10 (longWords text).length))) := by
  have hsmp := hs (longWords text) (min 10 (longWords text).length)
    (Nat.min_le_right 10 (longWords text).length)
  refine ⟨fun es h5 => ?_, fun es h5 => ?_, ?_⟩
  · rw [extract_entities, combinedEntities, if_neg (by omega)]
  · rw [extract_entities, combinedEntities, if_pos (by omega)]
    exact ⟨rfl, hsmp.1, hsmp.2⟩
  · rw [extract_entities, combinedEntities, if_pos (by simp)]

/-- Witness for C6 at a concrete input: a take-based sampler satisfying
`SampleSpec`, with text `"alpha bb gamma"`. -/
theorem extract_entities_padding_witness :
    (∀ es : List String, 5 ≤ es.length →
      extract_entities (some (Except.ok es)) (fun l n => l.take n) "alpha bb gamma" =
        Except.ok (dedupFirst es)) ∧
    (∀ es : List String, es.length < 5 →
      extract_entities (some (Except.ok es)) (fun l n => l.take n) "alpha bb gamma" =
        Except.ok (dedupFirst (es ++ (longWords "alpha bb gamma").take
          (min 10 (longWords "alpha bb gamma").length))) ∧
      ((longWords "alpha bb gamma").take (min 10 (longWords "alpha bb gamma").length)).length =
        min 10 (longWords "alpha bb gamma").length ∧
      List.Subperm ((longWords "alpha bb gamma").take (min 10 (longWords "alpha bb gamma").length))
        (longWords "alpha bb gamma")) ∧
    extract_entities none (fun l n => l.take n) "alpha bb gamma" =
      Except.ok (dedupFirst ([] ++ (longWords "alpha bb gamma").take
        (min 10 (longWords "alpha bb gamma").length))) :=
  extract_entities_padding (fun l n => l.take n)
    (fun l n h => ⟨by rw [List.length_take]; omega, (List.take_sublist n l).subperm⟩)
    "alpha bb gamma"

/-! ## Error containment -/

/-- Counterexample to claim C2: `extract_entities` does not catch a
failure of the loaded NER pipeline call — the exception propagates out of
the function. -/
theorem extract_entities_raises_counterexample :
    extract_entities (some (Except.error ())) (fun l n => l.take n) "" = Except.error () := by
  decide

/-- Claim C2 (amended): failures of external calls inside
`extract_text_from_file` and `generate_quiz_question` are caught at the
point of use and converted to a warning plus a default result, but
`extract_entities` has no handler: a failing NER pipeline call propagates
out of it. -/
theorem error_containment_amended :
    (∀ (p : List Char) (env : FileEnv) (e : Unit), extractBody p env = Except.error e →
      extract_text_from_file p env = ("", true)) ∧
    (∀ (entity material : String) (choice : Nat → Nat) (shuffle : List String → List String),
      genQuizFull entity material (some (Except.error ())) choice shuffle =
        (placeholderQ entity, "Yes")) ∧
    (∀ (sample : List String → Nat → List String) (text : String) (e : Unit),
      extract_entities (some (Except.error e)) sample text = Except.error e) := by
  refine ⟨fun p env e h => ?_, fun entity material choice shuffle => rfl,
    fun sample text e => rfl⟩
  rw [extract_text_from_file, h]
  rfl

/-- Witness for the amended C2 at concrete inputs. -/
theorem error_containment_amended_witness :
    extract_text_from_file "f.txt".data
      ⟨Except.error (), Except.ok [], Except.ok [], Except.ok [], Except.ok ""⟩ = ("", true) ∧
    genQuizFull "E" "m" (some (Except.error ())) (fun _ => 0) id = (placeholderQ "E", "Yes") ∧
    extract_entities (some (Except.error ())) (fun l n => l.take n) "" = Except.error () :=
  ⟨error_containment_amended.1 "f.txt".data
      ⟨Except.error (), Except.ok [], Except.ok [], Except.ok [], Except.ok ""⟩ () (by decide),
    error_containment_amended.2.1 "E" "m" (fun _ => 0) id,
    error_containment_amended.2.2 (fun l n => l.take n) "" ()⟩

/-- Claim C3: `extract_text_from_file` never raises — every run either
returns the stripped decoded text with no warning, or (on any failure in
the `try` block) prints a warning and returns the empty string.  In
particular there is no partial-extraction recovery: a PDF whose first page
decodes but whose second page fails yields `("", warning)`, not the text
of the first page. -/
theorem extract_text_from_file_total (p : List Char) (env : FileEnv) :
    ((∃ t, extractBody p env = Except.ok t ∧
        extract_text_from_file p env = (pyStrip t, false)) ∨
      (extractBody p env = Except.error () ∧
        extract_text_from_file p env = ("", true))) ∧
    (∀ ps : List PdfPage, extLower p = ".pdf".data →
      env.pdfPages = Except.ok (⟨Except.ok (some "T"), Except.ok "x"⟩ ::
        ⟨Except.error (), Except.error ()⟩ :: ps) →
      extract_text_from_file p env = ("", true)) := by
  constructor
  · rcases h : extractBody p env with e | t
    · cases e
      exact Or.inr ⟨rfl, by rw [extract_text_from_file, h]; rfl⟩
    · exact Or.inl ⟨t, rfl, by rw [extract_text_from_file, h]⟩
  · intro ps hext hpages
    have hbody : extractBody p env = Except.error () := by
      rw [extractBody, hext]
      rw [if_neg (by decide), if_neg (by decide), if_pos rfl, hpages]
      simp [mapExcept, processPage]
    rw [extract_text_from_file, hbody]
    rfl

/-- Witness for C3 at a concrete input: a two-page PDF whose second page
raises both on text extraction and on the OCR fallback. -/
theorem extract_text_from_file_total_witness :
    extract_text_from_file "f.pdf".data
      ⟨Except.error (), Except.error (),
        Except.ok [⟨Except.ok (some "T"), Except.ok "x"⟩, ⟨Except.error (), Except.error ()⟩],
        Except.error (), Except.error ()⟩ = ("", true) :=
  (extract_text_from_file_total "f.pdf".data
    ⟨Except.error (), Except.error (),
      Except.ok [⟨Except.ok (some "T"), Except.ok "x"⟩, ⟨Except.error (), Except.error ()⟩],
      Except.error (), Except.error ()⟩).2 [] (by decide) rfl

/-! ## Unknown extensions and stripping -/

theorem head_dropWhile_not {p : Char → Bool} :
    ∀ (l : List Char) (c : Char), (l.dropWhile p).head? = some c → p c = false := by
  intro l
  induction l with
  | nil => intro c h; simp [List.dropWhile] at h
  | cons x xs ih =>
    intro c h
    rw [List.dropWhile] at h
    by_cases hx : p x
    · simp only [hx] at h
      exact ih c h
    · simp only [Bool.not_eq_true] at hx
      simp only [hx] at h
      cases h
      exact hx

theorem getLast_dropWhile_not {p : Char → Bool} (l : List Char) (c : Char)
    (h : (l.dropWhile p).getLast? = some c) : l.getLast? = some c := by
  rcases List.dropWhile_suffix (l := l) p with ⟨t, ht⟩
  have hne : l.dropWhile p ≠ [] := by
    rintro he
    rw [he] at h
    simp at h
  rw [← ht, List.getLast?_append_of_ne_nil _ hne]
  exact h

theorem stripL_head_not_space (l : List Char) (c : Char)
    (h : (stripL l).head? = some c) : isPySpace c = false := by
  rw [stripL, List.head?_reverse] at h
  exact head_dropWhile_not _ c
    ((List.getLast?_reverse _) ▸ getLast_dropWhile_not _ c h)

theorem stripL_getLast_not_space (l : List Char) (c : Char)
    (h : (stripL l).getLast? = some c) : isPySpace c = false := by
  rw [stripL, List.getLast?_reverse] at h
  exact head_dropWhile_not _ c h

/-- Claim C10: file paths whose lowercased extension is none of the eight
supported ones yield the empty string with no warning printed, and for
every path and environment the returned string is stripped (its first and
last characters, when they exist, are not whitespace). -/
theorem extract_text_unknown_ext_and_stripped :
    (∀ (p : List Char) (env : FileEnv),
      extLower p ∉ ([".txt".data, ".java".data, ".docx".data, ".pdf".data,
        ".pptx".data, ".png".data, ".jpg".data, ".jpeg".data] : List (List Char)) →
      extract_text_from_file p env = ("", false)) ∧
    (∀ (p : List Char) (env : FileEnv) (c : Char),
      (((extract_text_from_file p env).1.data.head? = some c) → isPySpace c = false) ∧
      (((extract_text_from_file p env).1.data.getLast? = some c) → isPySpace c = false)) := by
  constructor
  · intro p env hmem
    simp only [List.mem_cons, List.not_mem_nil, or_false, not_or] at hmem
    obtain ⟨h1, h2, h3, h4, h5, h6, h7, h8⟩ := hmem
    have hbody : extractBody p env = Except.ok "" := by
      rw [extractBody]
      rw [if_neg (by tauto), if_neg h3, if_neg h4, if_neg h5, if_neg (by tauto)]
    rw [extract_text_from_file, hbody]
    rfl
  · intro p env c
    have hstrip : ∃ t, (extract_text_from_file p env).1 = pyStrip t := by
      rw [extract_text_from_file]
      rcases extractBody p env with e | t
      · exact ⟨"", rfl⟩
      · exact ⟨t, rfl⟩
    obtain ⟨t, ht⟩ := hstrip
    rw [ht]
    exact ⟨stripL_head_not_space t.data c, stripL_getLast_not_space t.data c⟩

/-- Witness for C10 at a concrete input: an unsupported `.weird`
extension. -/
theorem extract_text_unknown_ext_and_stripped_witness :
    extract_text_from_file "f.weird".data
      ⟨Except.error (), Except.error (), Except.error (), Except.error (), Except.error ()⟩ =
      ("", false) ∧
    (((extract_text_from_file "f.txt".data
        ⟨Except.ok " hi \n", Except.error (), Except.error (), Except.error (),
          Except.error ()⟩).1.data.head? = some ' ') → isPySpace ' ' = false) :=
  ⟨extract_text_unknown_ext_and_stripped.1 "f.weird".data
      ⟨Except.error (), Except.error (), Except.error (), Except.error (), Except.error ()⟩
      (by decide),
    (extract_text_unknown_ext_and_stripped.2 "f.txt".data
      ⟨Except.ok " hi \n", Except.error (), Except.error (), Except.error (), Except.error ()⟩
      ' ').1⟩

/-! ## The quiz loop -/

theorem presentedFrom_length_le (ans : Nat → String) :
    ∀ (qs : List QuizQuestion) (k i : Nat), i < qs.length →
      isExitAnswer (ans (k + i)) = true → (presentedFrom ans qs k).length ≤ i + 1 := by
  intro qs
  induction qs with
  | nil => intro k i hi _; simp at hi
  | cons q rest ih =>
    intro k i hi hexit
    rw [presentedFrom]
    by_cases hk : isExitAnswer (ans k)
    · rw [if_pos hk]
      simp
    · rw [if_neg hk]
      match i with
      | 0 => exact absurd (by simpa using hexit) hk
      | j + 1 =>
        have hj : j < rest.length := by simpa using hi
        have hexit' : isExitAnswer (ans ((k + 1) + j)) = true := by
          have : (k + 1) + j = k + (j + 1) := by omega
          rw [this]
          exact hexit
        have := ih (k + 1) j hj hexit'
        simp only [List.length_cons]
        omega

theorem presentedFrom_take (ans : Nat → String) :
    ∀ (qs : List QuizQuestion) (k : Nat),
      presentedFrom ans qs k = qs.take (presentedFrom ans qs k).length := by
  intro qs
  induction qs with
  | nil => intro k; rfl
  | cons q rest ih =>
    intro k
    rw [presentedFrom]
    by_cases hk : isExitAnswer (ans k)
    · rw [if_pos hk]
      rfl
    · rw [if_neg hk]
      simp only [List.length_cons, List.take_succ_cons]
      exact congrArg (q :: ·) (ih (k + 1))

/-- Claim C8: if the console answer at question position `i` equals
`exit` up to case and surrounding whitespace, the quiz loop presents no
question beyond position `i`; the presented questions are always an
initial segment of the question list, in order. -/
theorem quiz_loop_exit_sentinel (qs : List QuizQuestion) (ans : Nat → String) (i : Nat)
    (hi : i < qs.length) (hexit : isExitAnswer (ans i) = true) :
    (presentedQuestions qs ans).length ≤ i + 1 ∧
    presentedQuestions qs ans = qs.take (presentedQuestions qs ans).length :=
  ⟨presentedFrom_length_le ans qs 0 i hi (by simpa using hexit),
    presentedFrom_take ans qs 0⟩

/-- Witness for C8 at a concrete input: three questions, `" Exit "` typed
at position 1. -/
theorem quiz_loop_exit_sentinel_witness :
    (presentedQuestions [placeholderQ "a", placeholderQ "b", placeholderQ "c"]
      (fun i => if i = 1 then " Exit " else "A")).length ≤ 1 + 1 ∧
    presentedQuestions [placeholderQ "a", placeholderQ "b", placeholderQ "c"]
      (fun i => if i = 1 then " Exit " else "A") =
      ([placeholderQ "a", placeholderQ "b", placeholderQ "c"].take
        (presentedQuestions [placeholderQ "a", placeholderQ "b", placeholderQ "c"]
          (fun i => if i = 1 then " Exit " else "A")).length) :=
  quiz_loop_exit_sentinel [placeholderQ "a", placeholderQ "b", placeholderQ "c"]
    (fun i => if i = 1 then " Exit " else "A") 1 (by decide) (by decide)

/-! ## The knowledge graph -/

theorem length_filter_ne (a : String) :
    ∀ l : List String, l.Nodup → a ∈ l →
      (l.filter (fun e => e ≠ a)).length = l.length - 1 := by
  intro l
  induction l with
  | nil => intro _ ha; simp at ha
  | cons x xs ih =>
    intro hnd ha
    obtain ⟨hx, hndxs⟩ := List.nodup_cons.mp hnd
    by_cases hxa : x = a
    · subst hxa
      rw [List.filter_cons_of_neg (by simp)]
      have : xs.filter (fun e => e ≠ x) = xs :=
        List.filter_eq_self.mpr (fun b hb => by
          simp only [decide_eq_true_eq]
          exact fun hc => hx (hc ▸ hb))
      rw [this]
      simp
    · have hax : a ∈ xs := by
        rcases List.mem_cons.mp ha with rfl | h
        · exact absurd rfl hxa
        · exact h
      have hxs1 : 1 ≤ xs.length := List.length_pos.mpr (fun he => by simp [he] at hax)
      rw [List.filter_cons_of_pos (by simp [hxa])]
      simp only [List.length_cons]
      rw [ih hndxs hax]
      omega

theorem bkgGo_spec (sample : List String → Nat → List String) (hs : SampleSpec sample)
    (entities : List String) (hnd : entities.Nodup) :
    ∀ todo : List String, (∀ x ∈ todo, x ∈ entities) →
      ∃ kg, bkgGo sample entities todo = Except.ok kg ∧
        kg.map Prod.fst = todo ∧
        ∀ pr ∈ kg, pr.2.length = min 3 (entities.length - 1) ∧
          ∀ x ∈ pr.2, x ∈ entities ∧ x ≠ pr.1 := by
  intro todo
  induction todo with
  | nil => intro _; exact ⟨[], rfl, rfl, by simp⟩
  | cons ent rest ih =>
    intro hsub
    obtain ⟨kgR, hR, hmap, hprops⟩ := ih (fun x hx => hsub x (List.mem_cons_of_mem _ hx))
    have hent : ent ∈ entities := hsub ent (List.mem_cons_self _ _)
    have hpop : (entities.filter (fun e => e ≠ ent)).length = entities.length - 1 :=
      length_filter_ne ent entities hnd hent
    have hk : min 3 (entities.length - 1) ≤ (entities.filter (fun e => e ≠ ent)).length := by
      rw [hpop]
      exact Nat.min_le_right _ _
    have hsample := hs (entities.filter (fun e => e ≠ ent)) (min 3 (entities.length - 1)) hk
    refine ⟨(ent, sample (entities.filter (fun e => e ≠ ent)) (min 3 (entities.length - 1))) :: kgR,
      ?_, by simp [hmap], ?_⟩
    · rw [bkgGo, if_pos hk, hR]
    · intro pr hpr
      rcases List.mem_cons.mp hpr with rfl | hpr
      · refine ⟨hsample.1, fun x hx => ?_⟩
        have hxpop := hsample.2.subset hx
        have := List.mem_filter.mp hxpop
        exact ⟨this.1, by simpa using this.2⟩
      · exact hprops pr hpr

/-- Claim C7: for pairwise-distinct entities, `build_knowledge_graph`
returns a mapping whose keys are exactly the entities (in order), each
mapped to a list of `min(3, n-1)` entities drawn from the input and
distinct from the key. -/
theorem build_knowledge_graph_spec (sample : List String → Nat → List String)
    (hs : SampleSpec sample) (entities : List String) (hnd : entities.Nodup) :
    ∃ kg, build_knowledge_graph sample entities = Except.ok kg ∧
      kg.map Prod.fst = entities ∧
      ∀ pr ∈ kg, pr.2.length = min 3 (entities.length - 1) ∧
        ∀ x ∈ pr.2, x ∈ entities ∧ x ≠ pr.1 :=
  bkgGo_spec sample hs entities hnd entities (fun _ hx => hx)

/-- Witness for C7 at a concrete input: entities `["x","y"]` with a
take-based sampler. -/
theorem build_knowledge_graph_spec_witness :
    ∃ kg, build_knowledge_graph (fun l n => l.take n) ["x", "y"] = Except.ok kg ∧
      kg.map Prod.fst = ["x", "y"] ∧
      ∀ pr ∈ kg, pr.2.length = min 3 ((["x", "y"] : List String).length - 1) ∧
        ∀ x ∈ pr.2, x ∈ (["x", "y"] : List String) ∧ x ≠ pr.1 :=
  build_knowledge_graph_spec (fun l n => l.take n)
    (fun l n h => ⟨by rw [List.length_take]; omega, (List.take_sublist n l).subperm⟩)
    ["x", "y"] (by decide)

/-! ## The `start_quiz` pipeline -/

theorem bkgGo_map_fst (sample : List String → Nat → List String) (entities : List String) :
    ∀ (todo : List String) (kg : List (String × List String)),
      bkgGo sample entities todo = Except.ok kg → kg.map Prod.fst = todo := by
  intro todo
  induction todo with
  | nil => intro kg h; cases h; rfl
  | cons ent rest ih =>
    intro kg h
    rw [bkgGo] at h
    by_cases hk : min 3 (entities.length - 1) ≤
        (entities.filter (fun e => e ≠ ent)).length
    · rw [if_pos hk] at h
      rcases hrec : bkgGo sample entities rest with e | kgR
      · rw [hrec] at h
        cases h
      · rw [hrec] at h
        cases h
        simp [ih kgR hrec]
    · rw [if_neg hk] at h
      cases h

theorem genQuestions_length (text : String) (gen : Option (Nat → Except Unit String))
    (choice : Nat → Nat → Nat) (shuffle : Nat → List String → List String) :
    ∀ (l : List String) (i : Nat), (genQuestions text gen choice shuffle i l).length = l.length := by
  intro l
  induction l with
  | nil => intro i; rfl
  | cons e rest ih => intro i; simp [genQuestions, ih (i + 1)]

theorem genQuestions_getD (text : String) (gen : Option (Nat → Except Unit String))
    (choice : Nat → Nat → Nat) (shuffle : Nat → List String → List String) :
    ∀ (l : List String) (i j : Nat), j < l.length →
      (genQuestions text gen choice shuffle i l).getD j (placeholderQ "") =
        generate_quiz_question (l.getD j "") text (gen.map (fun f => f (i + j)))
          (choice (i + j)) (shuffle (i + j)) := by
  intro l
  induction l with
  | nil => intro i j hj; simp at hj
  | cons e rest ih =>
    intro i j hj
    match j with
    | 0 => rfl
    | m + 1 =>
      have hm : m < rest.length := by simpa using hj
      have := ih (i + 1) m hm
      rw [genQuestions]
      simp only [List.getD_cons_succ]
      rw [this]
      have harith : (i + 1) + m = i + (m + 1) := by omega
      rw [harith]

/-- Claim C9: `start_quiz` generates exactly one question for each of the
first `min(10, n)` entities, in order, and none for later entities, while
every entity remains a key of the knowledge graph. -/
theorem start_quiz_at_most_ten_questions (text : String)
    (ner : Option (Except Unit (List String))) (sample : List String → Nat → List String)
    (gen : Option (Nat → Except Unit String)) (choice : Nat → Nat → Nat)
    (shuffle : Nat → List String → List String) (r : QuizRun)
    (h : startQuizRun text ner sample gen choice shuffle = Except.ok r) :
    r.questions.length = min 10 r.entities.length ∧
    (∀ i, i < min 10 r.entities.length →
      r.questions.getD i (placeholderQ "") =
        generate_quiz_question (r.entities.getD i "") text (gen.map (fun f => f i))
          (choice i) (shuffle i)) ∧
    r.kg.map Prod.fst = r.entities := by
  rw [startQuizRun] at h
  rcases he : extract_entities ner sample text with e | entities
  · rw [he] at h
    exact Except.noConfusion h
  · rw [he] at h
    replace h : (match build_knowledge_graph sample entities with
        | Except.error e => (Except.error e : Except Unit QuizRun)
        | Except.ok kg =>
          Except.ok ⟨entities, kg, genQuestions text gen choice shuffle 0 (entities.take 10)⟩) =
        Except.ok r := h
    rcases hb : build_knowledge_graph sample entities with e | kg
    · rw [hb] at h
      exact Except.noConfusion h
    · rw [hb] at h
      cases h
      refine ⟨?_, fun i hi => ?_, bkgGo_map_fst sample entities entities kg hb⟩
      · rw [genQuestions_length, List.length_take]
      · have hlen : i < (entities.take 10).length := by
          rw [List.length_take]
          exact hi
        have := genQuestions_getD text gen choice shuffle (entities.take 10) 0 i hlen
        simp only [Nat.zero_add] at this
        rw [this]
        have htake : (entities.take 10).getD i "" = entities.getD i "" := by
          have hie : i < entities.length := lt_of_lt_of_le hi (Nat.min_le_right _ _)
          rw [List.getD_eq_getElem _ _ hlen, List.getD_eq_getElem _ _ hie]
          exact List.getElem_take entities
        rw [htake]

/-- Witness for C9 at a concrete input: five NER entities, no generator. -/
theorem start_quiz_at_most_ten_questions_witness :
    (QuizRun.questions ⟨["aa", "bb", "cc", "dd", "ee"],
      [("aa", ["bb", "cc", "dd"]), ("bb", ["aa", "cc", "dd"]), ("cc", ["aa", "bb", "dd"]),
        ("dd", ["aa", "bb", "cc"]), ("ee", ["aa", "bb", "cc"])],
      [placeholderQ "aa", placeholderQ "bb", placeholderQ "cc", placeholderQ "dd",
        placeholderQ "ee"]⟩).length =
      min 10 (QuizRun.entities ⟨["aa", "bb", "cc", "dd", "ee"],
        [("aa", ["bb", "cc", "dd"]), ("bb", ["aa", "cc", "dd"]), ("cc", ["aa", "bb", "dd"]),
          ("dd", ["aa", "bb", "cc"]), ("ee", ["aa", "bb", "cc"])],
        [placeholderQ "aa", placeholderQ "bb", placeholderQ "cc", placeholderQ "dd",
          placeholderQ "ee"]⟩).length ∧
    (∀ i, i < min 10 (QuizRun.entities ⟨["aa", "bb", "cc", "dd", "ee"],
        [("aa", ["bb", "cc", "dd"]), ("bb", ["aa", "cc", "dd"]), ("cc", ["aa", "bb", "dd"]),
          ("dd", ["aa", "bb", "cc"]), ("ee", ["aa", "bb", "cc"])],
        [placeholderQ "aa", placeholderQ "bb", placeholderQ "cc", placeholderQ "dd",
          placeholderQ "ee"]⟩).length →
      (QuizRun.questions ⟨["aa", "bb", "cc", "dd", "ee"],
        [("aa", ["bb", "cc", "dd"]), ("bb", ["aa", "cc", "dd"]), ("cc", ["aa", "bb", "dd"]),
          ("dd", ["aa", "bb", "cc"]), ("ee", ["aa", "bb", "cc"])],
        [placeholderQ "aa", placeholderQ "bb", placeholderQ "cc", placeholderQ "dd",
          placeholderQ "ee"]⟩).getD i (placeholderQ "") =
        generate_quiz_question ((QuizRun.entities ⟨["aa", "bb", "cc", "dd", "ee"],
          [("aa", ["bb", "cc", "dd"]), ("bb", ["aa", "cc", "dd"]), ("cc", ["aa", "bb", "dd"]),
            ("dd", ["aa", "bb", "cc"]), ("ee", ["aa", "bb", "cc"])],
          [placeholderQ "aa", placeholderQ "bb", placeholderQ "cc", placeholderQ "dd",
            placeholderQ "ee"]⟩).getD i "") "" ((none : Option (Nat → Except Unit String)).map
              (fun f => f i)) ((fun _ _ => 0) i) ((fun _ => (id : List String → List String)) i)) ∧
    (QuizRun.kg ⟨["aa", "bb", "cc", "dd", "ee"],
      [("aa", ["bb", "cc", "dd"]), ("bb", ["aa", "cc", "dd"]), ("cc", ["aa", "bb", "dd"]),
        ("dd", ["aa", "bb", "cc"]), ("ee", ["aa", "bb", "cc"])],
      [placeholderQ "aa", placeholderQ "bb", placeholderQ "cc", placeholderQ "dd",
        placeholderQ "ee"]⟩).map Prod.fst =
      QuizRun.entities ⟨["aa", "bb", "cc", "dd", "ee"],
        [("aa", ["bb", "cc", "dd"]), ("bb", ["aa", "cc", "dd"]), ("cc", ["aa", "bb", "dd"]),
          ("dd", ["aa", "bb", "cc"]), ("ee", ["aa", "bb", "cc"])],
        [placeholderQ "aa", placeholderQ "bb", placeholderQ "cc", placeholderQ "dd",
          placeholderQ "ee"]⟩ :=
  start_quiz_at_most_ten_questions "" (some (Except.ok ["aa", "bb", "cc", "dd", "ee"]))
    (fun l n => l.take n) none (fun _ _ => 0) (fun _ => id) _ (by decide)

/-! ## The placeholder fallback of `generate_quiz_question` -/

/-- Counterexample to claim C5: on generator output `"nothing"`, which
lacks all three `Question:`/`Answer:`/`Distractors:` markers, the function
does not return the placeholder — the parsing defaults kick in (entity as
question and answer) and the distractors are drawn from the material. -/
theorem generate_quiz_malformed_not_placeholder :
    containsL "Question:".data "nothing".data = false ∧
    containsL "Answer:".data "nothing".data = false ∧
    containsL "Distractors:".data "nothing".data = false ∧
    generate_quiz_question "E" "alpha beta gamma delta" (some (Except.ok "nothing"))
      (fun _ => 0) id = ⟨"E", ["A) E", "B) alpha", "C) alpha", "D) alpha"], "A"⟩ ∧
    generate_quiz_question "E" "alpha beta gamma delta" (some (Except.ok "nothing"))
      (fun _ => 0) id ≠ placeholderQ "E" := by
  decide

/-- Claim C5 (amended): `generate_quiz_question` returns the fixed
placeholder exactly on the exception paths — when the generative model is
unavailable, when its call raises, and when distractor padding raises
because no word of the material differs case-insensitively from the
parsed answer while fewer than 3 distractors were parsed.  Malformed
output lacking the markers does not by itself produce the placeholder. -/
theorem generate_quiz_placeholder_cases :
    (∀ (entity material : String) (choice : Nat → Nat) (shuffle : List String → List String),
      generate_quiz_question entity material none choice shuffle = placeholderQ entity) ∧
    (∀ (entity material : String) (choice : Nat → Nat) (shuffle : List String → List String),
      generate_quiz_question entity material (some (Except.error ())) choice shuffle =
        placeholderQ entity) ∧
    (∀ (entity material g : String) (choice : Nat → Nat) (shuffle : List String → List String),
      (pyWords material).filter (fun w => pyLower w ≠ pyLower (parsedField "Answer:"
        (((splitLines g).map pyStrip).filter (fun s => s ≠ "")) entity)) = [] →
      (((splitOnChar ',' (parsedField "Distractors:"
        (((splitLines g).map pyStrip).filter (fun s => s ≠ "")) "")).map pyStrip).filter
          (fun s => s ≠ "")).length < 3 →
      generate_quiz_question entity material (some (Except.ok g)) choice shuffle =
        placeholderQ entity) := by
  refine ⟨fun entity material choice shuffle => rfl, fun entity material choice shuffle => rfl,
    fun entity material g choice shuffle hcands hlen => ?_⟩
  rw [generate_quiz_question, genQuizFull]
  rw [hcands, genFromParsed, padGo, if_pos hlen,
    if_pos (show ([] : List String).length = 0 from rfl)]

/-- Witness for the amended C5 at concrete inputs: empty material, so no
distractor candidate exists. -/
theorem generate_quiz_placeholder_cases_witness :
    generate_quiz_question "E" "m" none (fun _ => 0) id = placeholderQ "E" ∧
    generate_quiz_question "E" "m" (some (Except.error ())) (fun _ => 0) id = placeholderQ "E" ∧
    generate_quiz_question "E" "" (some (Except.ok "junk")) (fun _ => 0) id = placeholderQ "E" :=
  ⟨generate_quiz_placeholder_cases.1 "E" "m" (fun _ => 0) id,
    generate_quiz_placeholder_cases.2.1 "E" "m" (fun _ => 0) id,
    generate_quiz_placeholder_cases.2.2 "E" "" "junk" (fun _ => 0) id (by decide) (by decide)⟩

/-! ## The option set of `generate_quiz_question` -/

theorem padGo_length (cands : List String) (choice : Nat → Nat) :
    ∀ (fuel step : Nat) (ds r : List String), padGo cands choice step fuel ds = some r →
      3 ≤ ds.length + fuel → 3 ≤ r.length := by
  intro fuel
  induction fuel with
  | zero =>
    intro step ds r h h3
    cases h
    omega
  | succ fuel ih =>
    intro step ds r h h3
    rw [padGo] at h
    by_cases hlt : ds.length < 3
    · rw [if_pos hlt] at h
      by_cases hc : cands.length = 0
      · rw [if_pos hc] at h
        exact Option.noConfusion h
      · rw [if_neg hc] at h
        refine ih (step + 1) _ r h ?_
        simp only [List.length_append, List.length_cons, List.length_nil]
        omega
    · rw [if_neg hlt] at h
      cases h
      omega

theorem length_eq_four {α : Type} (l : List α) (h : l.length = 4) :
    ∃ a b c d, l = [a, b, c, d] := by
  rcases l with _ | ⟨a, l⟩
  · simp at h
  rcases l with _ | ⟨b, l⟩
  · simp at h
  rcases l with _ | ⟨c, l⟩
  · simp at h
  rcases l with _ | ⟨d, l⟩
  · simp at h
  rcases l with _ | ⟨e, l⟩
  · exact ⟨a, b, c, d, rfl⟩
  · simp only [List.length_cons] at h
    omega

theorem getD_indexOf (l : List String) (a : String) (ha : a ∈ l) :
    l.getD (l.indexOf a) "" = a := by
  have hlt : l.indexOf a < l.length := List.indexOf_lt_length.mpr ha
  rw [List.getD_eq_getElem _ _ hlt]
  simp

theorem getD_map_range (f : Nat → String) (n i : Nat) (h : i < n) :
    ((List.range n).map f).getD i "" = f i := by
  have hlen : i < ((List.range n).map f).length := by simpa using h
  rw [List.getD_eq_getElem _ _ hlen]
  simp

theorem placeholder_optionsSpec (entity : String) :
    OptionsSpec (placeholderQ entity) "Yes" := by
  refine ⟨rfl, ⟨"Yes", "No", "Maybe", "N/A", rfl⟩, ?_, ?_⟩
  · show ("A" : String) ∈ letters
    decide
  · refine ⟨⟨0, by omega⟩, ⟨?_, ?_⟩, ?_⟩
    · show ("A" : String) = letters.getD 0 ""
      decide
    · show (["A) Yes", "B) No", "C) Maybe", "D) N/A"] : List String).getD 0 "" =
        "A" ++ ") " ++ "Yes"
      decide
    · show ∀ j : Fin 4, (("A" : String) = letters.getD j.val "" ∧
          (["A) Yes", "B) No", "C) Maybe", "D) N/A"] : List String).getD j.val "" =
            "A" ++ ") " ++ "Yes") → j = ⟨0, by omega⟩
      decide

theorem genAssemble_optionsSpec (question answer : String) (ds : List String)
    (shuffle : List String → List String) (hds : 3 ≤ ds.length)
    (hs : ∀ l, (shuffle l).Perm l) :
    OptionsSpec (genAssemble question answer ds shuffle).1
      (genAssemble question answer ds shuffle).2 := by
  simp only [genAssemble]
  have htake : (ds.take 3).length = 3 := by rw [List.length_take]; omega
  have hlenall : (answer :: ds.take 3).length = 4 := by simp [htake]
  have hperm := hs (answer :: ds.take 3)
  have hlen : (shuffle (answer :: ds.take 3)).length = 4 := hperm.length_eq.trans hlenall
  have hmem : answer ∈ shuffle (answer :: ds.take 3) :=
    hperm.mem_iff.mpr (List.mem_cons_self _ _)
  have hidx : (shuffle (answer :: ds.take 3)).indexOf answer < 4 := by
    have := List.indexOf_lt_length.mpr hmem
    omega
  obtain ⟨s0, s1, s2, s3, hsh⟩ := length_eq_four _ hlen
  have hput : (shuffle (answer :: ds.take 3)).getD
      ((shuffle (answer :: ds.take 3)).indexOf answer) "" = answer :=
    getD_indexOf _ _ hmem
  have hopts : (List.range 4).map
      (fun i => letters.getD i "" ++ ") " ++ (shuffle (answer :: ds.take 3)).getD i "") =
      ["A) " ++ s0, "B) " ++ s1, "C) " ++ s2, "D) " ++ s3] := by
    rw [hsh]
    rfl
  refine ⟨by rw [hopts]; rfl, ⟨s0, s1, s2, s3, by rw [hopts]⟩, ?_, ?_⟩
  · have hlet : ∀ i : Fin 4, letters.getD i.val "" ∈ letters := by decide
    exact hlet ⟨_, hidx⟩
  · refine ⟨⟨_, hidx⟩, ⟨rfl, ?_⟩, ?_⟩
    · rw [getD_map_range _ _ _ hidx, hput]
    · intro j hj
      have hinj : ∀ i j : Fin 4,
          letters.getD i.val "" = letters.getD j.val "" → i = j := by decide
      exact hinj j ⟨_, hidx⟩ hj.1.symm

/-- Claim C1: for every entity, material, and outcome of the generator and
of the internal randomness (any permutation as the shuffle outcome), the
returned dictionary has exactly 4 options labelled `A) `–`D) ` in that
order, its answer is one of the four letters, and exactly one option
carries the answer letter — the one whose text is the recorded correct
answer. -/
theorem generate_quiz_question_options (entity material : String)
    (gen : Option (Except Unit String)) (choice : Nat → Nat)
    (shuffle : List String → List String) (hs : ∀ l, (shuffle l).Perm l) :
    OptionsSpec (generate_quiz_question entity material gen choice shuffle)
      (genQuizFull entity material gen choice shuffle).2 := by
  rw [generate_quiz_question]
  rcases gen with _ | ge
  · exact placeholder_optionsSpec entity
  · rcases ge with e | g
    · exact placeholder_optionsSpec entity
    · rw [genQuizFull]
      rcases hp : padGo ((pyWords material).filter (fun w => pyLower w ≠ pyLower
          (parsedField "Answer:" (((splitLines g).map pyStrip).filter (fun s => s ≠ "")) entity)))
          choice 0 3
          (((splitOnChar ',' (parsedField "Distractors:"
            (((splitLines g).map pyStrip).filter (fun s => s ≠ "")) "")).map pyStrip).filter
              (fun s => s ≠ "")) with _ | ds
      · rw [genFromParsed, hp]
        exact placeholder_optionsSpec entity
      · rw [genFromParsed, hp]
        exact genAssemble_optionsSpec _ _ ds shuffle (padGo_length _ choice 3 0 _ ds hp (by omega)) hs

/-- Witness for C1 on the full success path: well-formed generator output
and reversal as the shuffle outcome. -/
theorem generate_quiz_question_options_witness :
    OptionsSpec (generate_quiz_question "E" "alpha beta gamma delta"
        (some (Except.ok "Question: q?\nAnswer: beta\nDistractors: x, y, z"))
        (fun _ => 0) (fun l => l.reverse))
      (genQuizFull "E" "alpha beta gamma delta"
        (some (Except.ok "Question: q?\nAnswer: beta\nDistractors: x, y, z"))
        (fun _ => 0) (fun l => l.reverse)).2 :=
  generate_quiz_question_options "E" "alpha beta gamma delta"
    (some (Except.ok "Question: q?\nAnswer: beta\nDistractors: x, y, z"))
    (fun _ => 0) (fun l => l.reverse) (fun l => List.reverse_perm l)

end StudyBuddy
